import Mathlib

/-!
Verification of the music player core: a shallow embedding of the zustand
audio store (src/stores/audio-store.ts), the playback hook
(src/hooks/use-audio-player.ts) and the playlist hook (usePlaylist).
JavaScript numbers are modelled as rationals, JavaScript array indices as
integers (they may be negative or out of range), and JavaScript values that
may be undefined as Option.
-/

namespace MusicApp

/-- Repeat mode of the player: the source strings "none", "one", "all". -/
inductive RepeatMode where
  | none
  | one
  | all
deriving DecidableEq, Repr

/-- Nested metadata record of a track (subset of TrackMetadata used by the
store, the playlist hooks and the export and import operations). -/
structure TrackMeta where
  title : String
  artist : String
  duration : ℚ
  album : Option String := Option.none
  year : Option ℤ := Option.none
  genre : Option String := Option.none
deriving DecidableEq, Repr

/-- AudioTrack record. -/
structure Track where
  id : String
  title : String
  artist : String
  duration : ℚ
  url : String
  thumbnail : Option String := Option.none
  metadata : TrackMeta
  tags : List String := []
  rating : ℚ := 0
  playCount : ℕ := 0
  dateAdded : String := ""
deriving DecidableEq, Repr

/-- Playlist record. The track list holds JavaScript array elements that are
track ids or undefined (undefined entries can be produced by splice with an
out-of-range index), hence Option String. -/
structure Playlist where
  id : String
  name : String
  description : Option String := Option.none
  tracks : List (Option String)
  createdAt : String := ""
  updatedAt : String := ""
  isDefault : Bool := false
deriving DecidableEq, Repr

/-- FilterOptions record of the store. -/
structure FilterOptions where
  search : String
  tags : List String
  genre : List String
  yearMin : ℤ
  yearMax : ℤ
  ratingMin : ℚ
  ratingMax : ℚ
  sortBy : String
  sortOrder : String
deriving DecidableEq, Repr

/-- The full mutable state of the audio store. -/
structure State where
  currentTrack : Option Track
  isPlaying : Bool
  isPaused : Bool
  currentTime : ℚ
  duration : ℚ
  volume : ℚ
  playbackRate : ℚ
  repeatMode : RepeatMode
  shuffleMode : Bool
  queue : List Track
  currentIndex : ℤ
  playlists : List Playlist
  tracks : List Track
  filterOptions : FilterOptions
deriving DecidableEq, Repr

/-- JavaScript array indexing: arr[i] is undefined for a negative or
out-of-range index. -/
def getIdx {α : Type} (l : List α) (i : ℤ) : Option α :=
  if 0 ≤ i then l.get? i.toNat else Option.none

/-- setCurrentTrack action of the store. -/
def setCurrentTrack (t : Option Track) (s : State) : State :=
  { s with currentTrack := t }

/-- togglePlayPause action of the store. -/
def togglePlayPause (s : State) : State :=
  { s with isPlaying := !s.isPlaying, isPaused := s.isPlaying }

/-- play action of the store. -/
def play (s : State) : State :=
  { s with isPlaying := true, isPaused := false }

/-- pause action of the store. -/
def pause (s : State) : State :=
  { s with isPlaying := false, isPaused := true }

/-- stop action of the store. -/
def stop (s : State) : State :=
  { s with isPlaying := false, isPaused := false, currentTime := 0 }

/-- seek action of the store. -/
def seek (time : ℚ) (s : State) : State :=
  { s with currentTime := time }

/-- setVolume action: clamps with Math.min(Math.max(volume, 0), 1). -/
def setVolume (volume : ℚ) (s : State) : State :=
  { s with volume := min (max volume 0) 1 }

/-- setPlaybackRate action: clamps with Math.min(Math.max(rate, 0.25), 4). -/
def setPlaybackRate (rate : ℚ) (s : State) : State :=
  { s with playbackRate := min (max rate 0.25) 4 }

/-- setRepeatMode action of the store. -/
def setRepeatMode (mode : RepeatMode) (s : State) : State :=
  { s with repeatMode := mode }

/-- setShuffleMode action of the store. -/
def setShuffleMode (enabled : Bool) (s : State) : State :=
  { s with shuffleMode := enabled }

/-- nextTrack action of the store. The shuffle branch uses Math.random to
pick an index; that external random draw is passed in as rnd. An early
return in the source leaves the state unchanged. -/
def nextTrack (rnd : ℕ) (s : State) : State :=
  if s.queue.length = 0 then s
  else
    let candidate : ℤ := s.currentIndex + 1
    let chosen : Option ℤ :=
      if s.shuffleMode then Option.some (rnd : ℤ)
      else if (s.queue.length : ℤ) ≤ candidate then
        if s.repeatMode = RepeatMode.all then Option.some 0 else Option.none
      else Option.some candidate
    match chosen with
    | Option.none => s
    | Option.some nextIndex =>
        { s with
          currentIndex := nextIndex
          currentTrack := getIdx s.queue nextIndex
          currentTime := 0 }

/-- previousTrack action of the store, symmetric to nextTrack. -/
def previousTrack (rnd : ℕ) (s : State) : State :=
  if s.queue.length = 0 then s
  else
    let candidate : ℤ := s.currentIndex - 1
    let chosen : Option ℤ :=
      if s.shuffleMode then Option.some (rnd : ℤ)
      else if candidate < 0 then
        if s.repeatMode = RepeatMode.all then Option.some ((s.queue.length : ℤ) - 1)
        else Option.none
      else Option.some candidate
    match chosen with
    | Option.none => s
    | Option.some prevIndex =>
        { s with
          currentIndex := prevIndex
          currentTrack := getIdx s.queue prevIndex
          currentTime := 0 }

/-- addToQueue action of the store. -/
def addToQueue (t : Track) (s : State) : State :=
  { s with queue := s.queue ++ [t] }

/-- removeFromQueue action of the store. -/
def removeFromQueue (index : ℤ) (s : State) : State :=
  let newQueue := (s.queue.enum.filter (fun p => ((p.1 : ℤ) != index))).map Prod.snd
  let newIndex := if index < s.currentIndex then s.currentIndex - 1 else s.currentIndex
  { s with
    queue := newQueue
    currentIndex := newIndex
    currentTrack := getIdx newQueue newIndex }

/-- clearQueue action of the store. -/
def clearQueue (s : State) : State :=
  { s with
    queue := []
    currentIndex := 0
    currentTrack := Option.none
    isPlaying := false
    isPaused := false }

/-- setQueue action of the store. -/
def setQueue (ts : List Track) (s : State) : State :=
  { s with queue := ts, currentIndex := 0, currentTrack := ts.get? 0 }

/-- setCurrentIndex action of the store. -/
def setCurrentIndex (index : ℤ) (s : State) : State :=
  { s with
    currentIndex := index
    currentTrack := getIdx s.queue index
    currentTime := 0 }

/-- Input of addPlaylist: a playlist without id and timestamps. -/
structure PlaylistData where
  name : String
  description : Option String := Option.none
  tracks : List (Option String)
  isDefault : Bool := false
deriving DecidableEq, Repr

/-- addPlaylist action. The generated id and the Date.now timestamp are
external inputs of the source, passed in explicitly. -/
def addPlaylist (pd : PlaylistData) (pid now : String) (s : State) : State :=
  { s with
    playlists := s.playlists ++
      [{ id := pid, name := pd.name, description := pd.description,
         tracks := pd.tracks, createdAt := now, updatedAt := now,
         isDefault := pd.isDefault }] }

/-- A partial update of a playlist, as passed to updatePlaylist. -/
structure PlaylistUpdates where
  name : Option String := Option.none
  description : Option (Option String) := Option.none
  tracks : Option (List (Option String)) := Option.none
deriving DecidableEq, Repr

/-- Merging an update object into a playlist record (object spread). -/
def applyPlaylistUpdates (u : PlaylistUpdates) (p : Playlist) : Playlist :=
  { p with
    name := u.name.getD p.name
    description := u.description.getD p.description
    tracks := u.tracks.getD p.tracks }

/-- updatePlaylist action of the store. -/
def updatePlaylist (id : String) (u : PlaylistUpdates) (now : String) (s : State) : State :=
  { s with
    playlists := s.playlists.map (fun p =>
      if p.id = id then { applyPlaylistUpdates u p with updatedAt := now } else p) }

/-- deletePlaylist action of the store. -/
def deletePlaylist (id : String) (s : State) : State :=
  { s with playlists := s.playlists.filter (fun p => p.id != id) }

/-- addTrackToPlaylist action of the store: appends the track id unless the
playlist already contains it. -/
def addTrackToPlaylist (playlistId trackId : String) (now : String) (s : State) : State :=
  { s with
    playlists := s.playlists.map (fun p =>
      if p.id = playlistId then
        { p with
          tracks := if Option.some trackId ∈ p.tracks then p.tracks
                    else p.tracks ++ [Option.some trackId]
          updatedAt := now }
      else p) }

/-- removeTrackFromPlaylist action of the store. -/
def removeTrackFromPlaylist (playlistId trackId : String) (now : String) (s : State) : State :=
  { s with
    playlists := s.playlists.map (fun p =>
      if p.id = playlistId then
        { p with
          tracks := p.tracks.filter (fun i => i != Option.some trackId)
          updatedAt := now }
      else p) }

/-- setTracks action of the store. -/
def setTracks (ts : List Track) (s : State) : State :=
  { s with tracks := ts }

/-- addTrack action of the store. -/
def addTrack (t : Track) (s : State) : State :=
  { s with tracks := s.tracks ++ [t] }

/-- A partial update of a track, as passed to updateTrack. -/
structure TrackUpdates where
  title : Option String := Option.none
  artist : Option String := Option.none
  duration : Option ℚ := Option.none
  url : Option String := Option.none
  tags : Option (List String) := Option.none
  rating : Option ℚ := Option.none
  playCount : Option ℕ := Option.none
  dateAdded : Option String := Option.none
deriving DecidableEq, Repr

/-- Merging an update object into a track record (object spread). -/
def applyTrackUpdates (u : TrackUpdates) (t : Track) : Track :=
  { t with
    title := u.title.getD t.title
    artist := u.artist.getD t.artist
    duration := u.duration.getD t.duration
    url := u.url.getD t.url
    tags := u.tags.getD t.tags
    rating := u.rating.getD t.rating
    playCount := u.playCount.getD t.playCount
    dateAdded := u.dateAdded.getD t.dateAdded }

/-- updateTrack action of the store. -/
def updateTrack (id : String) (u : TrackUpdates) (s : State) : State :=
  { s with
    tracks := s.tracks.map (fun t => if t.id = id then applyTrackUpdates u t else t) }

/-- deleteTrack action of the store: removes the track from the track
collection and the queue and clears currentTrack when it was that track.
The playlists field is not touched by the source. -/
def deleteTrack (id : String) (s : State) : State :=
  { s with
    tracks := s.tracks.filter (fun t => t.id != id)
    queue := s.queue.filter (fun t => t.id != id)
    currentTrack :=
      match s.currentTrack with
      | Option.some t => if t.id = id then Option.none else Option.some t
      | Option.none => Option.none }

/-- A partial update of the filter options, as passed to setFilterOptions. -/
structure FilterUpdates where
  search : Option String := Option.none
  tags : Option (List String) := Option.none
  genre : Option (List String) := Option.none
  yearMin : Option ℤ := Option.none
  yearMax : Option ℤ := Option.none
  ratingMin : Option ℚ := Option.none
  ratingMax : Option ℚ := Option.none
  sortBy : Option String := Option.none
  sortOrder : Option String := Option.none
deriving DecidableEq, Repr

/-- setFilterOptions action of the store (object spread merge). -/
def setFilterOptions (u : FilterUpdates) (s : State) : State :=
  { s with
    filterOptions :=
      { search := u.search.getD s.filterOptions.search
        tags := u.tags.getD s.filterOptions.tags
        genre := u.genre.getD s.filterOptions.genre
        yearMin := u.yearMin.getD s.filterOptions.yearMin
        yearMax := u.yearMax.getD s.filterOptions.yearMax
        ratingMin := u.ratingMin.getD s.filterOptions.ratingMin
        ratingMax := u.ratingMax.getD s.filterOptions.ratingMax
        sortBy := u.sortBy.getD s.filterOptions.sortBy
        sortOrder := u.sortOrder.getD s.filterOptions.sortOrder } }

/-- The default filter options of the store. -/
def defaultFilterOptions (currentYear : ℤ) : FilterOptions :=
  { search := "", tags := [], genre := [], yearMin := 1900, yearMax := currentYear,
    ratingMin := 0, ratingMax := 5, sortBy := "title", sortOrder := "asc" }

/-- resetFilterOptions action of the store. -/
def resetFilterOptions (currentYear : ℤ) (s : State) : State :=
  { s with filterOptions := defaultFilterOptions currentYear }

/-- getPlaylistTracks selector of the store: resolves the track ids of a
playlist against the track collection, dropping dangling ids. -/
def getPlaylistTracks (playlistId : String) (s : State) : List Track :=
  match s.playlists.find? (fun p => p.id == playlistId) with
  | Option.none => []
  | Option.some p => s.tracks.filter (fun t => Option.some t.id ∈ p.tracks)

/-- The record persisted by the persist middleware, as built by the
partialize option of the store: exactly volume, repeatMode, shuffleMode,
playlists, tracks and filterOptions. -/
structure PersistedState where
  volume : ℚ
  repeatMode : RepeatMode
  shuffleMode : Bool
  playlists : List Playlist
  tracks : List Track
  filterOptions : FilterOptions
deriving DecidableEq, Repr

/-- persistSubset models the partialize option passed to persist. -/
def persistSubset (s : State) : PersistedState :=
  { volume := s.volume
    repeatMode := s.repeatMode
    shuffleMode := s.shuffleMode
    playlists := s.playlists
    tracks := s.tracks
    filterOptions := s.filterOptions }

/-!
The track-change effect of useAudioPlayer (src/hooks/use-audio-player.ts):
when currentTrack is set, reload the media element and write
playCount := (currentTrack.playCount or 0) + 1 through updateTrack. Note the
written value is computed from the currentTrack snapshot held by the hook,
not from the stored track record.
-/

/-- The body of the track-change effect of useAudioPlayer, run when the
currentTrack dependency changes; a null currentTrack does nothing. -/
def trackChangeEffect (s : State) : State :=
  match s.currentTrack with
  | Option.none => s
  | Option.some t => updateTrack t.id { playCount := Option.some (t.playCount + 1) } s

/-- One currentTrack assignment as observed through the hook: the store
update followed by the track-change effect. This runs the effect on every
assignment, which is the reading most favourable to the spec (React skips
the effect when the currentTrack reference is unchanged, which only removes
further increments). -/
def assignCurrentTrack (t : Track) (s : State) : State :=
  trackChangeEffect (setCurrentTrack (Option.some t) s)

/-- The playCount stored in the track collection for a given id (the first
record with that id, as updateTrack rewrites all of them). -/
def getPlayCount (id : String) (s : State) : Option ℕ :=
  (s.tracks.find? (fun t => t.id == id)).map Track.playCount

/-!
The playlist hook (usePlaylist): createPlaylist, reorderTracks,
exportPlaylist and importPlaylist. reorderTracks uses Array.prototype.splice
twice, with no index validation; the JavaScript splice semantics is modelled
exactly, including its normalisation of negative and too-large indices and
the undefined value produced when nothing is removed.
-/

/-- JavaScript splice index normalisation: a negative start counts from the
end (clamped at 0), a start beyond the length clamps to the length. -/
def jsNormStart (len : ℕ) (i : ℤ) : ℕ :=
  if i < 0 then ((len : ℤ) + i).toNat else min i.toNat len

/-- arr.splice(i, 1): the removed element (none when nothing was removed)
and the remaining array. -/
def jsSpliceRemoveOne {α : Type} (l : List α) (i : ℤ) : Option α × List α :=
  let st := jsNormStart l.length i
  (l.get? st, l.take st ++ l.drop (st + 1))

/-- arr.splice(i, 0, x): inserts x at the normalised index. -/
def jsSpliceInsertOne {α : Type} (l : List α) (i : ℤ) (x : α) : List α :=
  let st := jsNormStart l.length i
  l.take st ++ x :: l.drop st

/-- The track-list transformation of reorderTracks: remove one element at
fromIndex, insert it back at toIndex. When the removal index is out of range
the destructured moved element is the JavaScript value undefined, and splice
inserts that undefined into the array. -/
def jsReorderOne (l : List (Option String)) (fromIndex toIndex : ℤ) : List (Option String) :=
  let r := jsSpliceRemoveOne l fromIndex
  jsSpliceInsertOne r.2 toIndex (r.1.getD Option.none)

/-- reorderTracks of usePlaylist: a missing playlist returns early, else the
spliced track list is written through updatePlaylist. -/
def reorderTracks (playlistId : String) (fromIndex toIndex : ℤ) (now : String)
    (s : State) : State :=
  match s.playlists.find? (fun p => p.id == playlistId) with
  | Option.none => s
  | Option.some p =>
      updatePlaylist playlistId
        { tracks := Option.some (jsReorderOne p.tracks fromIndex toIndex) } now s

/-- The single-element move the spec describes for reorder: remove the
element at fromIndex and reinsert it at toIndex, preserving the relative
order of all other elements. Written from the words of the spec, to be
compared with the splice-based source implementation. -/
def specMove {α : Type} (l : List α) (fromIndex toIndex : ℕ) : List α :=
  match l.get? fromIndex with
  | Option.none => l
  | Option.some x =>
      (l.eraseIdx fromIndex).take toIndex ++ x :: (l.eraseIdx fromIndex).drop toIndex

/-- createPlaylist of usePlaylist: builds the playlist data and calls
addPlaylist. -/
def createPlaylist (name : String) (description : Option String)
    (trackIds : List (Option String)) (pid now : String) (s : State) : State :=
  addPlaylist { name := name, description := description, tracks := trackIds,
                isDefault := false } pid now s

/-- One track of an export snapshot: title, artist, duration, url and no id
(the snapshot is portable). -/
structure ExportedTrack where
  title : String
  artist : String
  duration : ℚ
  url : String
deriving DecidableEq, Repr

/-- The playlist part of an export snapshot. -/
structure SnapshotPlaylist where
  name : String
  description : Option String
  tracks : List ExportedTrack
deriving DecidableEq, Repr

/-- The metadata part of an export snapshot. -/
structure SnapshotMeta where
  exportedAt : String
  totalTracks : ℕ
  totalDuration : ℚ
deriving DecidableEq, Repr

/-- An export snapshot as produced by exportPlaylist. -/
structure PlaylistSnapshot where
  playlist : SnapshotPlaylist
  metadata : SnapshotMeta
deriving DecidableEq, Repr

/-- exportPlaylist of usePlaylist: null for a missing playlist, else the
snapshot of the resolved tracks. -/
def exportPlaylist (playlistId : String) (now : String) (s : State) :
    Option PlaylistSnapshot :=
  match s.playlists.find? (fun p => p.id == playlistId) with
  | Option.none => Option.none
  | Option.some p =>
      let resolved := getPlaylistTracks playlistId s
      Option.some
        { playlist :=
            { name := p.name
              description := p.description
              tracks := resolved.map (fun t =>
                { title := t.title, artist := t.artist,
                  duration := t.duration, url := t.url }) }
          metadata :=
            { exportedAt := now
              totalTracks := resolved.length
              totalDuration := (resolved.map Track.duration).sum } }

/-- A track record materialised by importPlaylist from one snapshot entry. -/
def importedTrack (id now : String) (e : ExportedTrack) : Track :=
  { id := id
    title := e.title
    artist := e.artist
    duration := e.duration
    url := e.url
    metadata := { title := e.title, artist := e.artist, duration := e.duration }
    tags := []
    rating := 0
    playCount := 0
    dateAdded := now }

/-- importPlaylist of usePlaylist. The generateId draws are passed in as
gen (one fresh id per snapshot track) and the playlist id as pid. The source
builds the imported track records and then iterates over them with a loop
whose body is commented out (a comment notes that adding them to the store
would need to be implemented), so the track collection is left unchanged;
only the playlist with the fresh track ids is created. -/
def importPlaylist (gen : ℕ → String) (pid now : String) (pd : SnapshotPlaylist)
    (s : State) : State :=
  let importedTracks := pd.tracks.enum.map (fun e => importedTrack (gen e.1) now e.2)
  let trackIds := importedTracks.map (fun t => Option.some t.id)
  createPlaylist pd.name pd.description trackIds pid now s

/-!
All actions of the store as one inductive type with a step function, for the
invariant claims that range over every store operation. External inputs of
an action (generated ids, timestamps, random draws) are constructor
arguments.
-/

/-- One store action; arguments carry the caller input together with the
external inputs (ids, timestamps, random draws) the source obtains from the
environment. -/
inductive Action where
  | setCurrentTrack (t : Option Track)
  | togglePlayPause
  | play
  | pause
  | stop
  | seek (time : ℚ)
  | setVolume (v : ℚ)
  | setPlaybackRate (r : ℚ)
  | setRepeatMode (m : RepeatMode)
  | setShuffleMode (b : Bool)
  | nextTrack (rnd : ℕ)
  | previousTrack (rnd : ℕ)
  | addToQueue (t : Track)
  | removeFromQueue (i : ℤ)
  | clearQueue
  | setQueue (ts : List Track)
  | setCurrentIndex (i : ℤ)
  | addPlaylist (pd : PlaylistData) (pid now : String)
  | updatePlaylist (id : String) (u : PlaylistUpdates) (now : String)
  | deletePlaylist (id : String)
  | addTrackToPlaylist (pid tid now : String)
  | removeTrackFromPlaylist (pid tid now : String)
  | setTracks (ts : List Track)
  | addTrack (t : Track)
  | updateTrack (id : String) (u : TrackUpdates)
  | deleteTrack (id : String)
  | setFilterOptions (u : FilterUpdates)
  | resetFilterOptions (currentYear : ℤ)

/-- The step function dispatching an action to its store operation. -/
def step (a : Action) (s : State) : State :=
  match a with
  | Action.setCurrentTrack t => setCurrentTrack t s
  | Action.togglePlayPause => togglePlayPause s
  | Action.play => play s
  | Action.pause => pause s
  | Action.stop => stop s
  | Action.seek time => seek time s
  | Action.setVolume v => setVolume v s
  | Action.setPlaybackRate r => setPlaybackRate r s
  | Action.setRepeatMode m => setRepeatMode m s
  | Action.setShuffleMode b => setShuffleMode b s
  | Action.nextTrack rnd => nextTrack rnd s
  | Action.previousTrack rnd => previousTrack rnd s
  | Action.addToQueue t => addToQueue t s
  | Action.removeFromQueue i => removeFromQueue i s
  | Action.clearQueue => clearQueue s
  | Action.setQueue ts => setQueue ts s
  | Action.setCurrentIndex i => setCurrentIndex i s
  | Action.addPlaylist pd pid now => addPlaylist pd pid now s
  | Action.updatePlaylist id u now => updatePlaylist id u now s
  | Action.deletePlaylist id => deletePlaylist id s
  | Action.addTrackToPlaylist pid tid now => addTrackToPlaylist pid tid now s
  | Action.removeTrackFromPlaylist pid tid now => removeTrackFromPlaylist pid tid now s
  | Action.setTracks ts => setTracks ts s
  | Action.addTrack t => addTrack t s
  | Action.updateTrack id u => updateTrack id u s
  | Action.deleteTrack id => deleteTrack id s
  | Action.setFilterOptions u => setFilterOptions u s
  | Action.resetFilterOptions y => resetFilterOptions y s

/-!
Concrete fixture data used by the witnesses and counterexamples: a library
of three tracks, a queue holding all of them and one playlist referencing
all of them, with repeat-all and shuffle off.
-/

/-- A sample track built from an id. -/
def sampleTrack (i : String) : Track :=
  { id := i
    title := "Song " ++ i
    artist := "Artist " ++ i
    duration := 100
    url := "file:" ++ i
    metadata := { title := "Song " ++ i, artist := "Artist " ++ i, duration := 100 } }

/-- A sample playlist referencing the three sample tracks in order. -/
def samplePlaylist : Playlist :=
  { id := "p1", name := "Favourites",
    tracks := [Option.some "a", Option.some "b", Option.some "c"] }

/-- A sample store state: three tracks in the library and in the queue, one
playlist, repeat-all, shuffle off, stopped at index 0. -/
def sampleState : State :=
  { currentTrack := Option.none
    isPlaying := false
    isPaused := false
    currentTime := 0
    duration := 0
    volume := 1
    playbackRate := 1
    repeatMode := RepeatMode.all
    shuffleMode := false
    queue := [sampleTrack "a", sampleTrack "b", sampleTrack "c"]
    currentIndex := 0
    playlists := [samplePlaylist]
    tracks := [sampleTrack "a", sampleTrack "b", sampleTrack "c"]
    filterOptions := defaultFilterOptions 2025 }

/-!
Characterisation lemmas for the sequential (shuffle off) branches of
nextTrack and previousTrack.
-/

/-- nextTrack on an empty queue returns early. -/
lemma nextTrack_empty (rnd : ℕ) (s : State) (h : s.queue = []) :
    nextTrack rnd s = s := by
  simp [nextTrack, h]

/-- nextTrack in the middle of the queue advances to currentIndex + 1. -/
lemma nextTrack_mid (rnd : ℕ) (s : State) (hsh : s.shuffleMode = false)
    (hq : s.queue.length ≠ 0) (hlt : s.currentIndex + 1 < (s.queue.length : ℤ)) :
    nextTrack rnd s =
      { s with currentIndex := s.currentIndex + 1
               currentTrack := getIdx s.queue (s.currentIndex + 1)
               currentTime := 0 } := by
  have h1 : ¬((s.queue.length : ℤ) ≤ s.currentIndex + 1) := not_le.mpr hlt
  simp [nextTrack, hq, hsh, h1]

/-- nextTrack past the end with repeat-all wraps to index 0. -/
lemma nextTrack_wrap (rnd : ℕ) (s : State) (hsh : s.shuffleMode = false)
    (hq : s.queue.length ≠ 0) (hge : (s.queue.length : ℤ) ≤ s.currentIndex + 1)
    (hall : s.repeatMode = RepeatMode.all) :
    nextTrack rnd s =
      { s with currentIndex := 0
               currentTrack := getIdx s.queue 0
               currentTime := 0 } := by
  simp [nextTrack, hq, hsh, hge, hall]

/-- nextTrack past the end without repeat-all returns early. -/
lemma nextTrack_noMore (rnd : ℕ) (s : State) (hsh : s.shuffleMode = false)
    (hq : s.queue.length ≠ 0) (hge : (s.queue.length : ℤ) ≤ s.currentIndex + 1)
    (hnall : s.repeatMode ≠ RepeatMode.all) :
    nextTrack rnd s = s := by
  simp [nextTrack, hq, hsh, hge, hnall]

/-- previousTrack on an empty queue returns early. -/
lemma previousTrack_empty (rnd : ℕ) (s : State) (h : s.queue = []) :
    previousTrack rnd s = s := by
  simp [previousTrack, h]

/-- previousTrack with a nonnegative candidate moves to currentIndex - 1. -/
lemma previousTrack_mid (rnd : ℕ) (s : State) (hsh : s.shuffleMode = false)
    (hq : s.queue.length ≠ 0) (hge : 0 ≤ s.currentIndex - 1) :
    previousTrack rnd s =
      { s with currentIndex := s.currentIndex - 1
               currentTrack := getIdx s.queue (s.currentIndex - 1)
               currentTime := 0 } := by
  have h1 : ¬(s.currentIndex - 1 < 0) := not_lt.mpr hge
  simp [previousTrack, hq, hsh, h1]

/-- previousTrack before the start with repeat-all wraps to the last index. -/
lemma previousTrack_wrap (rnd : ℕ) (s : State) (hsh : s.shuffleMode = false)
    (hq : s.queue.length ≠ 0) (hlt : s.currentIndex - 1 < 0)
    (hall : s.repeatMode = RepeatMode.all) :
    previousTrack rnd s =
      { s with currentIndex := (s.queue.length : ℤ) - 1
               currentTrack := getIdx s.queue ((s.queue.length : ℤ) - 1)
               currentTime := 0 } := by
  simp [previousTrack, hq, hsh, hlt, hall]

/-- previousTrack before the start without repeat-all returns early. -/
lemma previousTrack_noMore (rnd : ℕ) (s : State) (hsh : s.shuffleMode = false)
    (hq : s.queue.length ≠ 0) (hlt : s.currentIndex - 1 < 0)
    (hnall : s.repeatMode ≠ RepeatMode.all) :
    previousTrack rnd s = s := by
  simp [previousTrack, hq, hsh, hlt, hnall]

/-- nextTrack never changes the transport flags. -/
lemma nextTrack_flags (rnd : ℕ) (s : State) :
    (nextTrack rnd s).isPlaying = s.isPlaying
    ∧ (nextTrack rnd s).isPaused = s.isPaused := by
  unfold nextTrack
  split
  · exact ⟨rfl, rfl⟩
  · dsimp only
    repeat' split
    all_goals exact ⟨rfl, rfl⟩

/-- previousTrack never changes the transport flags. -/
lemma previousTrack_flags (rnd : ℕ) (s : State) :
    (previousTrack rnd s).isPlaying = s.isPlaying
    ∧ (previousTrack rnd s).isPaused = s.isPaused := by
  unfold previousTrack
  split
  · exact ⟨rfl, rfl⟩
  · dsimp only
    repeat' split
    all_goals exact ⟨rfl, rfl⟩

/-- With shuffle off and repeat-all, one nextTrack call from a valid index i
moves to (i + 1) mod len. -/
lemma nextTrack_all_mod (rnd : ℕ) (s : State) (i : ℕ) (hsh : s.shuffleMode = false)
    (hall : s.repeatMode = RepeatMode.all) (hci : s.currentIndex = (i : ℤ))
    (hlt : i < s.queue.length) :
    nextTrack rnd s =
      { s with currentIndex := (((i + 1) % s.queue.length : ℕ) : ℤ)
               currentTrack := getIdx s.queue (((i + 1) % s.queue.length : ℕ) : ℤ)
               currentTime := 0 } := by
  have hq : s.queue.length ≠ 0 := by omega
  by_cases hc : i + 1 < s.queue.length
  · have hmod : (i + 1) % s.queue.length = i + 1 := Nat.mod_eq_of_lt hc
    have hlt2 : s.currentIndex + 1 < (s.queue.length : ℤ) := by
      rw [hci]; exact_mod_cast hc
    rw [nextTrack_mid rnd s hsh hq hlt2, hmod, hci]
    push_cast
    rfl
  · have hlen : i + 1 = s.queue.length := by omega
    have hmod : (i + 1) % s.queue.length = 0 := by rw [hlen]; exact Nat.mod_self _
    have hge : (s.queue.length : ℤ) ≤ s.currentIndex + 1 := by
      rw [hci]; exact_mod_cast hlen.ge
    rw [nextTrack_wrap rnd s hsh hq hge hall, hmod]
    push_cast
    rfl

/-- Iterating nextTrack k times with shuffle off and repeat-all from a valid
index i lands on (i + k) mod len and preserves the queue and the modes. -/
lemma nextTrack_all_iter (rnd : ℕ) (s : State) (i : ℕ) (hsh : s.shuffleMode = false)
    (hall : s.repeatMode = RepeatMode.all) (hci : s.currentIndex = (i : ℤ))
    (hlt : i < s.queue.length) (k : ℕ) :
    ((nextTrack rnd)^[k] s).currentIndex = (((i + k) % s.queue.length : ℕ) : ℤ)
    ∧ ((nextTrack rnd)^[k] s).queue = s.queue
    ∧ ((nextTrack rnd)^[k] s).shuffleMode = false
    ∧ ((nextTrack rnd)^[k] s).repeatMode = RepeatMode.all := by
  induction k with
  | zero =>
      refine ⟨?_, rfl, hsh, hall⟩
      simpa [Nat.mod_eq_of_lt hlt] using hci
  | succ k ih =>
      obtain ⟨h1, h2, h3, h4⟩ := ih
      have hpos : 0 < s.queue.length := by omega
      have harg2 : (i + k) % s.queue.length < ((nextTrack rnd)^[k] s).queue.length := by
        rw [h2]; exact Nat.mod_lt _ hpos
      have hmain := nextTrack_all_mod rnd ((nextTrack rnd)^[k] s)
        ((i + k) % s.queue.length) h3 h4 h1 harg2
      rw [Function.iterate_succ_apply', hmain]
      refine ⟨?_, h2, h3, h4⟩
      dsimp only
      rw [h2, Nat.mod_add_mod]
      congr 1

/-- The current indices observed after each of the len(queue) successive
nextTrack calls. -/
def visitedIdx (rnd : ℕ) (s : State) : List ℤ :=
  (List.range s.queue.length).map (fun k => ((nextTrack rnd)^[k + 1] s).currentIndex)

/-- C1: with shuffle off, nextTrack follows the sequential next-track
algorithm: on an empty queue it is the identity; below the last index it
moves to currentIndex + 1 (resetting time, keeping the queue); at the last
index it wraps to 0 exactly when repeat-all is set and otherwise leaves the
whole state unchanged; and with repeat-all on a non-empty queue, len(queue)
successive calls visit every index exactly once and return to the starting
index. -/
theorem nextTrack_sequential_spec (rnd : ℕ) (s : State) (i : ℕ)
    (hsh : s.shuffleMode = false) :
    (s.queue = [] → nextTrack rnd s = s)
    ∧ (s.currentIndex = (i : ℤ) → i + 1 < s.queue.length →
        (nextTrack rnd s).currentIndex = (i : ℤ) + 1
        ∧ (nextTrack rnd s).currentTrack = getIdx s.queue ((i : ℤ) + 1)
        ∧ (nextTrack rnd s).queue = s.queue
        ∧ (nextTrack rnd s).currentTime = 0)
    ∧ (s.currentIndex = (i : ℤ) → i + 1 = s.queue.length →
        (s.repeatMode = RepeatMode.all →
          (nextTrack rnd s).currentIndex = 0
          ∧ (nextTrack rnd s).currentTrack = getIdx s.queue 0)
        ∧ (s.repeatMode ≠ RepeatMode.all → nextTrack rnd s = s))
    ∧ (s.repeatMode = RepeatMode.all → s.currentIndex = (i : ℤ) →
        i < s.queue.length →
        ((nextTrack rnd)^[s.queue.length] s).currentIndex = (i : ℤ)
        ∧ (visitedIdx rnd s).length = s.queue.length
        ∧ (visitedIdx rnd s).Nodup
        ∧ (∀ j : ℕ, (j : ℤ) ∈ visitedIdx rnd s ↔ j < s.queue.length)) := by
  refine ⟨nextTrack_empty rnd s, ?_, ?_, ?_⟩
  · intro hci hlt
    have hq : s.queue.length ≠ 0 := by omega
    have hlt2 : s.currentIndex + 1 < (s.queue.length : ℤ) := by
      rw [hci]; exact_mod_cast hlt
    rw [nextTrack_mid rnd s hsh hq hlt2, hci]
    exact ⟨rfl, rfl, rfl, rfl⟩
  · intro hci hlen
    have hq : s.queue.length ≠ 0 := by omega
    have hge : (s.queue.length : ℤ) ≤ s.currentIndex + 1 := by
      rw [hci]; exact_mod_cast hlen.ge
    constructor
    · intro hall
      rw [nextTrack_wrap rnd s hsh hq hge hall]
      exact ⟨rfl, rfl⟩
    · intro hnall
      exact nextTrack_noMore rnd s hsh hq hge hnall
  · intro hall hci hlt
    have hpos : 0 < s.queue.length := by omega
    have hiter := nextTrack_all_iter rnd s i hsh hall hci hlt
    have helem : ∀ k : ℕ,
        ((nextTrack rnd)^[k + 1] s).currentIndex
          = (((i + (k + 1)) % s.queue.length : ℕ) : ℤ) :=
      fun k => (hiter (k + 1)).1
    refine ⟨?_, ?_, ?_, ?_⟩
    · rw [(hiter s.queue.length).1, Nat.add_mod_right, Nat.mod_eq_of_lt hlt]
    · simp [visitedIdx]
    · unfold visitedIdx
      refine List.Nodup.map_on ?_ (List.nodup_range _)
      intro k1 hk1 k2 hk2 heq
      rw [List.mem_range] at hk1 hk2
      rw [helem k1, helem k2] at heq
      have heqn : (i + (k1 + 1)) % s.queue.length
          = (i + (k2 + 1)) % s.queue.length := by exact_mod_cast heq
      have e1 : i + (k1 + 1) = (i + 1) + k1 := by omega
      have e2 : i + (k2 + 1) = (i + 1) + k2 := by omega
      rw [e1, e2] at heqn
      have hmeq : k1 ≡ k2 [MOD s.queue.length] :=
        Nat.ModEq.add_left_cancel' (i + 1) heqn
      calc k1 = k1 % s.queue.length := (Nat.mod_eq_of_lt hk1).symm
        _ = k2 % s.queue.length := hmeq
        _ = k2 := Nat.mod_eq_of_lt hk2
    · intro j
      constructor
      · intro hj
        unfold visitedIdx at hj
        rw [List.mem_map] at hj
        obtain ⟨k, hk, he⟩ := hj
        rw [helem k] at he
        have : (i + (k + 1)) % s.queue.length = j := by exact_mod_cast he
        rw [← this]
        exact Nat.mod_lt _ hpos
      · intro hj
        set m := (i + 1) % s.queue.length with hm
        have hmlt : m < s.queue.length := Nat.mod_lt _ hpos
        set k0 := (j + s.queue.length - m) % s.queue.length with hk0
        have hk0lt : k0 < s.queue.length := Nat.mod_lt _ hpos
        have hchain : ((i + 1) + k0) % s.queue.length = j := by
          have c1 : (i + 1) + k0 ≡ m + k0 [MOD s.queue.length] :=
            Nat.ModEq.add_right k0 (Nat.mod_modEq (i + 1) s.queue.length).symm
          have c2 : m + k0 ≡ m + (j + s.queue.length - m) [MOD s.queue.length] :=
            Nat.ModEq.add_left m (Nat.mod_modEq (j + s.queue.length - m) s.queue.length)
          have c3 : m + (j + s.queue.length - m) = j + s.queue.length := by omega
          have c4 : (j + s.queue.length) ≡ j [MOD s.queue.length] :=
            Nat.add_mod_right j s.queue.length
          rw [c3] at c2
          have := (c1.trans c2).trans c4
          calc ((i + 1) + k0) % s.queue.length
              = j % s.queue.length := this
            _ = j := Nat.mod_eq_of_lt hj
        unfold visitedIdx
        rw [List.mem_map]
        refine ⟨k0, List.mem_range.mpr hk0lt, ?_⟩
        rw [helem k0]
        have e3 : i + (k0 + 1) = (i + 1) + k0 := by omega
        rw [e3, hchain]

/-- Witness for C1: on the sample state (three tracks, repeat-all, shuffle
off, index 0) three nextTrack calls return to index 0 with no index
repeated. -/
theorem nextTrack_sequential_spec_witness :
    ((nextTrack 0)^[sampleState.queue.length] sampleState).currentIndex = ((0 : ℕ) : ℤ)
    ∧ (visitedIdx 0 sampleState).Nodup := by
  have h := (nextTrack_sequential_spec 0 sampleState 0 rfl).2.2.2 rfl rfl (by decide)
  exact ⟨h.1, h.2.2.1⟩

/-- C2: with shuffle off, previousTrack is symmetric to nextTrack: on an
empty queue it is the identity; with a nonnegative candidate it moves to
currentIndex - 1; below index 0 it wraps to len(queue) - 1 exactly when
repeat-all is set and otherwise leaves the state unchanged; and on a
single-track queue at index 0 with repeat-all both nextTrack and
previousTrack set the index to 0. -/
theorem previousTrack_sequential_spec (rnd : ℕ) (s : State)
    (hsh : s.shuffleMode = false) :
    (s.queue = [] → previousTrack rnd s = s)
    ∧ (0 ≤ s.currentIndex - 1 → s.queue ≠ [] →
        (previousTrack rnd s).currentIndex = s.currentIndex - 1
        ∧ (previousTrack rnd s).currentTrack = getIdx s.queue (s.currentIndex - 1)
        ∧ (previousTrack rnd s).queue = s.queue
        ∧ (previousTrack rnd s).currentTime = 0)
    ∧ (s.currentIndex - 1 < 0 → s.queue ≠ [] →
        (s.repeatMode = RepeatMode.all →
          (previousTrack rnd s).currentIndex = (s.queue.length : ℤ) - 1
          ∧ (previousTrack rnd s).currentTrack = getIdx s.queue ((s.queue.length : ℤ) - 1))
        ∧ (s.repeatMode ≠ RepeatMode.all → previousTrack rnd s = s))
    ∧ (s.queue.length = 1 → s.currentIndex = 0 → s.repeatMode = RepeatMode.all →
        (nextTrack rnd s).currentIndex = 0
        ∧ (previousTrack rnd s).currentIndex = 0) := by
  refine ⟨previousTrack_empty rnd s, ?_, ?_, ?_⟩
  · intro hge hne
    have hq : s.queue.length ≠ 0 := fun h => hne (List.length_eq_zero.mp h)
    rw [previousTrack_mid rnd s hsh hq hge]
    exact ⟨rfl, rfl, rfl, rfl⟩
  · intro hlt hne
    have hq : s.queue.length ≠ 0 := fun h => hne (List.length_eq_zero.mp h)
    constructor
    · intro hall
      rw [previousTrack_wrap rnd s hsh hq hlt hall]
      exact ⟨rfl, rfl⟩
    · intro hnall
      exact previousTrack_noMore rnd s hsh hq hlt hnall
  · intro hlen hci hall
    have hq : s.queue.length ≠ 0 := by omega
    constructor
    · have hge : (s.queue.length : ℤ) ≤ s.currentIndex + 1 := by
        rw [hci, hlen]; norm_num
      rw [nextTrack_wrap rnd s hsh hq hge hall]
    · have hlt : s.currentIndex - 1 < 0 := by rw [hci]; norm_num
      rw [previousTrack_wrap rnd s hsh hq hlt hall]
      show (s.queue.length : ℤ) - 1 = 0
      rw [hlen]
      norm_num

/-- Witness for C2: on the sample state previousTrack at index 0 with
repeat-all wraps to the last index. -/
theorem previousTrack_sequential_spec_witness :
    (previousTrack 0 sampleState).currentIndex = (sampleState.queue.length : ℤ) - 1 :=
  (((previousTrack_sequential_spec 0 sampleState rfl).2.2.1
      (by decide) (by decide)).1 rfl).1

/-- C8: setVolume stores exactly min(max(v,0),1) and setPlaybackRate stores
exactly min(max(r,0.25),4), touching no other field; the stored volume is
always within bounds, in-range inputs are kept verbatim, out-of-range inputs
are silently clamped, and the spec examples 1.5, -0.2, 10, 0.1 clamp to 1,
0, 4, 0.25. -/
theorem setters_clamp_spec (v r : ℚ) (s : State) :
    setVolume v s = { s with volume := min (max v 0) 1 }
    ∧ setPlaybackRate r s = { s with playbackRate := min (max r 0.25) 4 }
    ∧ 0 ≤ (setVolume v s).volume
    ∧ (setVolume v s).volume ≤ 1
    ∧ (0 ≤ v → v ≤ 1 → (setVolume v s).volume = v)
    ∧ (1/4 ≤ r → r ≤ 4 → (setPlaybackRate r s).playbackRate = r)
    ∧ (setVolume (3/2) s).volume = 1
    ∧ (setVolume (-(1/5)) s).volume = 0
    ∧ (setPlaybackRate 10 s).playbackRate = 4
    ∧ (setPlaybackRate (1/10) s).playbackRate = 1/4 := by
  refine ⟨rfl, rfl, ?_, ?_, ?_, ?_, ?_, ?_, ?_, ?_⟩
  · exact le_min (le_max_right v 0) (by norm_num)
  · exact min_le_right _ _
  · intro h0 h1
    simp [setVolume, max_eq_left h0, min_eq_left h1]
  · intro h0 h1
    have h0' : (0.25 : ℚ) ≤ r := by norm_num at h0 ⊢; linarith
    simp [setPlaybackRate, max_eq_left h0', min_eq_left h1]
  · norm_num [setVolume]
  · norm_num [setVolume]
  · norm_num [setPlaybackRate]
  · norm_num [setPlaybackRate]

/-- Witness for C8 at concrete in-range inputs. -/
theorem setters_clamp_spec_witness :
    (setVolume (1/2) sampleState).volume = 1/2
    ∧ (setPlaybackRate 2 sampleState).playbackRate = 2 := by
  have h := setters_clamp_spec (1/2) 2 sampleState
  exact ⟨h.2.2.2.2.1 (by norm_num) (by norm_num),
         h.2.2.2.2.2.1 (by norm_num) (by norm_num)⟩

/-- C4 amended: the record built by the persist partialize option carries
exactly volume, repeatMode, shuffleMode, playlists, tracks and
filterOptions; playbackRate, currentTime and currentTrack do not influence
it, so they are not persisted. -/
theorem persist_subset_spec (s : State) (x y : ℚ) (t : Option Track) :
    (persistSubset s).volume = s.volume
    ∧ (persistSubset s).repeatMode = s.repeatMode
    ∧ (persistSubset s).shuffleMode = s.shuffleMode
    ∧ (persistSubset s).playlists = s.playlists
    ∧ (persistSubset s).tracks = s.tracks
    ∧ (persistSubset s).filterOptions = s.filterOptions
    ∧ persistSubset { s with playbackRate := x, currentTime := y, currentTrack := t }
        = persistSubset s :=
  ⟨rfl, rfl, rfl, rfl, rfl, rfl, rfl⟩

/-- C4 counterexample: two states that differ only in playbackRate produce
the same persisted record, so playbackRate is not part of the persisted
subset, contrary to the claim. -/
theorem persist_playbackRate_cex :
    persistSubset { sampleState with playbackRate := 3 } = persistSubset sampleState
    ∧ ({ sampleState with playbackRate := 3 } : State).playbackRate
        ≠ sampleState.playbackRate := by
  exact ⟨rfl, by decide⟩

/-- C10: addTrackToPlaylist is idempotent on the playlist track lists: when
every playlist carrying the target id already contains the track id, the
track lists of all playlists are unchanged (no duplicate entry is ever
appended). -/
theorem addTrackToPlaylist_idempotent (s : State) (pid tid now : String)
    (h : ∀ p ∈ s.playlists, p.id = pid → Option.some tid ∈ p.tracks) :
    (addTrackToPlaylist pid tid now s).playlists.map Playlist.tracks
      = s.playlists.map Playlist.tracks := by
  simp only [addTrackToPlaylist, List.map_map]
  apply List.map_congr_left
  intro p hp
  by_cases hid : p.id = pid
  · simp [Function.comp, hid, h p hp hid]
  · simp [Function.comp, hid]

/-- Witness for C10: the sample playlist already contains track a. -/
theorem addTrackToPlaylist_idempotent_witness :
    (addTrackToPlaylist "p1" "a" "ts" sampleState).playlists.map Playlist.tracks
      = sampleState.playlists.map Playlist.tracks :=
  addTrackToPlaylist_idempotent sampleState "p1" "a" "ts" (by decide)

/-- C9: the transport flags are never both true: every store action
preserves the mutual-exclusion invariant, and stop yields both flags false
and currentTime 0 while currentTrack and the queue are unchanged. -/
theorem flags_mutual_exclusion (a : Action) (s : State)
    (h : ¬(s.isPlaying = true ∧ s.isPaused = true)) :
    ¬((step a s).isPlaying = true ∧ (step a s).isPaused = true)
    ∧ (step Action.stop s).isPlaying = false
    ∧ (step Action.stop s).isPaused = false
    ∧ (step Action.stop s).currentTime = 0
    ∧ (step Action.stop s).currentTrack = s.currentTrack
    ∧ (step Action.stop s).queue = s.queue := by
  refine ⟨?_, rfl, rfl, rfl, rfl, rfl⟩
  cases a with
  | togglePlayPause =>
      simp only [step, togglePlayPause]
      cases hp : s.isPlaying <;> simp
  | play => simp [step, play]
  | pause => simp [step, pause]
  | stop => simp [step, stop]
  | clearQueue => simp [step, clearQueue]
  | nextTrack rnd =>
      have hf := nextTrack_flags rnd s
      simpa only [step, hf.1, hf.2] using h
  | previousTrack rnd =>
      have hf := previousTrack_flags rnd s
      simpa only [step, hf.1, hf.2] using h
  | setCurrentTrack t => exact h
  | seek t => exact h
  | setVolume v => exact h
  | setPlaybackRate r => exact h
  | setRepeatMode m => exact h
  | setShuffleMode b => exact h
  | addToQueue t => exact h
  | removeFromQueue i => exact h
  | setQueue ts => exact h
  | setCurrentIndex i => exact h
  | addPlaylist pd pid now => exact h
  | updatePlaylist id u now => exact h
  | deletePlaylist id => exact h
  | addTrackToPlaylist pid tid now => exact h
  | removeTrackFromPlaylist pid tid now => exact h
  | setTracks ts => exact h
  | addTrack t => exact h
  | updateTrack id u => exact h
  | deleteTrack id => exact h
  | setFilterOptions u => exact h
  | resetFilterOptions y => exact h

/-- Witness for C9 at the toggle action on the sample state. -/
theorem flags_mutual_exclusion_witness :
    ¬((step Action.togglePlayPause sampleState).isPlaying = true
      ∧ (step Action.togglePlayPause sampleState).isPaused = true) :=
  (flags_mutual_exclusion Action.togglePlayPause sampleState (by decide)).1

/-!
Claim C3: the playCount effect.
-/

/-- updateTrack never changes the ids of the track collection. -/
lemma updateTrack_ids (s : State) (id : String) (u : TrackUpdates) :
    (updateTrack id u s).tracks.map Track.id = s.tracks.map Track.id := by
  unfold updateTrack
  rw [List.map_map]
  apply List.map_congr_left
  intro t _
  by_cases h : t.id = id <;> simp [Function.comp, h, applyTrackUpdates]

/-- After rewriting the playCount of every track with a given id, the first
record found for that id carries exactly the written playCount. -/
lemma find_playCount_update (l : List Track) (id : String) (pc : ℕ)
    (h : id ∈ l.map Track.id) :
    ((l.map (fun t => if t.id = id then
        applyTrackUpdates { playCount := Option.some pc } t else t)).find?
          (fun t => t.id == id)).map Track.playCount = Option.some pc := by
  induction l with
  | nil => simp at h
  | cons a l ih =>
      by_cases ha : a.id = id
      · rw [List.map_cons, if_pos ha,
          List.find?_cons_of_pos _ (by simp [applyTrackUpdates, ha])]
        simp [applyTrackUpdates]
      · rw [List.map_cons, if_neg ha,
          List.find?_cons_of_neg _ (by simp [ha])]
        apply ih
        simp only [List.map_cons, List.mem_cons] at h
        rcases h with h | h
        · exact absurd h.symm ha
        · exact h

/-- assignCurrentTrack keeps the track ids of the collection. -/
lemma assignCurrentTrack_ids (t : Track) (s : State) :
    (assignCurrentTrack t s).tracks.map Track.id = s.tracks.map Track.id := by
  unfold assignCurrentTrack trackChangeEffect setCurrentTrack
  exact updateTrack_ids _ _ _

/-- C3 amended: each run of the track-change effect writes
snapshot playCount + 1 into the stored record of the assigned track, so one
assignment increments the stored playCount of an in-sync snapshot by exactly
one; but the effect recomputes from the stale snapshot, so assigning the
same given track twice in sequence leaves the stored playCount at
snapshot playCount + 1 — a total increment of one, not two. -/
theorem playCount_assign_spec (s : State) (t : Track)
    (h : t.id ∈ s.tracks.map Track.id) :
    getPlayCount t.id (assignCurrentTrack t s) = Option.some (t.playCount + 1)
    ∧ getPlayCount t.id (assignCurrentTrack t (assignCurrentTrack t s))
        = Option.some (t.playCount + 1) := by
  constructor
  · unfold assignCurrentTrack trackChangeEffect setCurrentTrack getPlayCount updateTrack
    exact find_playCount_update s.tracks t.id (t.playCount + 1) h
  · have h2 : t.id ∈ (assignCurrentTrack t s).tracks.map Track.id := by
      rw [assignCurrentTrack_ids]; exact h
    conv_lhs =>
      rw [show assignCurrentTrack t (assignCurrentTrack t s)
        = trackChangeEffect (setCurrentTrack (Option.some t) (assignCurrentTrack t s)) from rfl]
    unfold trackChangeEffect setCurrentTrack getPlayCount updateTrack
    exact find_playCount_update (assignCurrentTrack t s).tracks t.id (t.playCount + 1) h2

/-- Witness for the amended C3 on the sample state. -/
theorem playCount_assign_spec_witness :
    getPlayCount "a" (assignCurrentTrack (sampleTrack "a") sampleState)
      = Option.some 1 := by
  have h := playCount_assign_spec sampleState (sampleTrack "a") (by decide)
  exact h.1

/-- C3 counterexample: in the sample state, track a is stored with
playCount 0 and the assigned snapshot also carries playCount 0; assigning
currentTrack to this same track twice in sequence leaves the stored
playCount at 1, not the claimed 0 + 2. -/
theorem playCount_double_assign_cex :
    getPlayCount "a" sampleState = Option.some 0
    ∧ getPlayCount "a" (assignCurrentTrack (sampleTrack "a")
        (assignCurrentTrack (sampleTrack "a") sampleState)) = Option.some 1
    ∧ (Option.some 1 : Option ℕ) ≠ Option.some (0 + 2) := by
  exact ⟨rfl, by decide, by decide⟩

/-!
Claim C5: reorder.
-/

/-- For in-range indices the splice-based reorder equals the single-element
move that removes the element at fromIndex and reinserts it at toIndex,
preserving the relative order of all other elements. -/
lemma jsReorderOne_eq_specMove (l : List (Option String)) (f t : ℕ)
    (hf : f < l.length) (ht : t < l.length) :
    jsReorderOne l (f : ℤ) (t : ℤ) = specMove l f t := by
  have hx : l.get? f = Option.some (l.get ⟨f, hf⟩) := List.get?_eq_get hf
  have hrest : l.take f ++ l.drop (f + 1) = l.eraseIdx f :=
    (List.eraseIdx_eq_take_drop_succ l f).symm
  have hnf : ¬((f : ℤ) < 0) := by omega
  have hnt : ¬((t : ℤ) < 0) := by omega
  have hlenrest : (l.eraseIdx f).length = l.length - 1 := by
    rw [← hrest]
    simp
    omega
  unfold jsReorderOne jsSpliceRemoveOne jsSpliceInsertOne jsNormStart specMove
  simp only [if_neg hnf, if_neg hnt, Int.toNat_natCast]
  simp only [min_eq_left (le_of_lt hf)]
  simp only [hx, hrest, hlenrest]
  simp only [min_eq_left (show t ≤ l.length - 1 by omega)]
  simp

/-- C5 amended: reorderTracks with an unknown playlist id is a no-op on the
whole state; for an existing playlist and in-range indices it rewrites every
playlist carrying that id with the single-element move of the found playlist
track list, leaving all other playlists untouched. Out-of-range indices are
not validated by the source (see the counterexample). -/
theorem reorder_spec (s : State) (pid : String) (f t : ℕ) (now : String) :
    (s.playlists.find? (fun p => p.id == pid) = Option.none →
       reorderTracks pid (f : ℤ) (t : ℤ) now s = s)
    ∧ (∀ p, s.playlists.find? (fun q => q.id == pid) = Option.some p →
        f < p.tracks.length → t < p.tracks.length →
        (reorderTracks pid (f : ℤ) (t : ℤ) now s).playlists.map Playlist.tracks
          = s.playlists.map (fun q =>
              if q.id = pid then specMove p.tracks f t else q.tracks)) := by
  constructor
  · intro hnone
    unfold reorderTracks
    rw [hnone]
  · intro p hfind hf ht
    unfold reorderTracks
    rw [hfind]
    unfold updatePlaylist
    rw [List.map_map]
    apply List.map_congr_left
    intro q _
    by_cases hq : q.id = pid
    · simp [Function.comp, hq, applyPlaylistUpdates,
        jsReorderOne_eq_specMove p.tracks f t hf ht]
    · simp [Function.comp, hq]

/-- Witness for the amended C5: moving the first sample playlist entry to
position 2 yields the track list b, c, a. -/
theorem reorder_spec_witness :
    (reorderTracks "p1" ((0 : ℕ) : ℤ) ((2 : ℕ) : ℤ) "ts" sampleState).playlists.map
        Playlist.tracks
      = sampleState.playlists.map (fun q =>
          if q.id = "p1" then specMove samplePlaylist.tracks 0 2 else q.tracks) :=
  (reorder_spec sampleState "p1" 0 2 "ts").2 samplePlaylist (by decide)
    (by decide) (by decide)

/-- C5 counterexample: fromIndex 3 is out of range for the 3-element sample
playlist, yet reorderTracks is not a no-op: splice removes nothing and then
inserts the undefined moved element, so the playlist track list becomes
undefined, a, b, c. -/
theorem reorder_out_of_range_cex :
    (reorderTracks "p1" 3 0 "ts" sampleState).playlists.map Playlist.tracks
      = [[Option.none, Option.some "a", Option.some "b", Option.some "c"]]
    ∧ sampleState.playlists.map Playlist.tracks
      = [[Option.some "a", Option.some "b", Option.some "c"]]
    ∧ (reorderTracks "p1" 3 0 "ts" sampleState).playlists.map Playlist.tracks
      ≠ sampleState.playlists.map Playlist.tracks := by
  exact ⟨by decide, by decide, by decide⟩

/-!
Claim C6: export then import.
-/

/-- A supply of fresh ids for importPlaylist, distinct from every id in the
sample state. -/
def freshGen (k : ℕ) : String :=
  "fresh" ++ String.mk (List.replicate k ('x'))

/-- The state after exporting the sample playlist and importing the
resulting snapshot as a new playlist p2. -/
def sampleImportedState : State :=
  match exportPlaylist "p1" "ts" sampleState with
  | Option.some sn => importPlaylist freshGen "p2" "ts" sn.playlist sampleState
  | Option.none => sampleState

/-- C6: evaluation of the export and import source at the failing input. The
original playlist resolves to 3 tracks and its export snapshot carries 3
track entries, but importPlaylist leaves the track collection unchanged for
every input (the source loop that would store the materialised tracks is
commented out), so the imported playlist, though created with 3 fresh track
ids, resolves to 0 tracks — the round-trip does not preserve count, titles
and artists. -/
theorem import_roundtrip_bug :
    (∀ (gen : ℕ → String) (pid now : String) (pd : SnapshotPlaylist) (s : State),
        (importPlaylist gen pid now pd s).tracks = s.tracks)
    ∧ (getPlaylistTracks "p1" sampleState).length = 3
    ∧ (exportPlaylist "p1" "ts" sampleState).map (fun sn => sn.playlist.tracks.length)
        = Option.some 3
    ∧ sampleImportedState.tracks = sampleState.tracks
    ∧ sampleImportedState.playlists.map Playlist.tracks
        = [samplePlaylist.tracks,
           [Option.some "fresh", Option.some "freshx", Option.some "freshxx"]]
    ∧ (getPlaylistTracks "p2" sampleImportedState).length = 0 := by
  refine ⟨fun gen pid now pd s => rfl, by decide, by decide, by decide, by decide, by decide⟩

/-!
Claim C7: deleteTrack cascade.
-/

/-- C7 amended: deleteTrack removes every track with the given id from the
track collection and from the queue and clears currentTrack exactly when the
current track carried that id, but it leaves the playlists untouched: a
deleted track id stays in playlist track lists as a dangling reference
(dropped only at read time by getPlaylistTracks). -/
theorem deleteTrack_cascade_spec (s : State) (id : String) :
    (deleteTrack id s).tracks = s.tracks.filter (fun t => t.id != id)
    ∧ (∀ t, t ∈ (deleteTrack id s).tracks ↔ (t ∈ s.tracks ∧ t.id ≠ id))
    ∧ (deleteTrack id s).queue = s.queue.filter (fun t => t.id != id)
    ∧ (∀ t, t ∈ (deleteTrack id s).queue ↔ (t ∈ s.queue ∧ t.id ≠ id))
    ∧ (s.currentTrack.map Track.id = Option.some id →
        (deleteTrack id s).currentTrack = Option.none)
    ∧ (s.currentTrack.map Track.id ≠ Option.some id →
        (deleteTrack id s).currentTrack = s.currentTrack)
    ∧ (deleteTrack id s).playlists = s.playlists := by
  refine ⟨rfl, ?_, rfl, ?_, ?_, ?_, rfl⟩
  · intro t
    simp [deleteTrack, List.mem_filter]
  · intro t
    simp [deleteTrack, List.mem_filter]
  · intro h
    cases hc : s.currentTrack with
    | none => rw [hc] at h; simp at h
    | some ct =>
        rw [hc] at h
        have : ct.id = id := by simpa using h
        simp [deleteTrack, hc, this]
  · intro h
    cases hc : s.currentTrack with
    | none => simp [deleteTrack, hc]
    | some ct =>
        rw [hc] at h
        have : ct.id ≠ id := by simpa using h
        simp [deleteTrack, hc, this]

/-- Witness for the amended C7 on the sample state. -/
theorem deleteTrack_cascade_spec_witness :
    (deleteTrack "a" sampleState).playlists = sampleState.playlists
    ∧ (deleteTrack "a" sampleState).currentTrack = sampleState.currentTrack := by
  have h := deleteTrack_cascade_spec sampleState "a"
  exact ⟨h.2.2.2.2.2.2, h.2.2.2.2.2.1 (by decide)⟩

/-- C7 counterexample: deleting track a removes it from the track collection
but its id remains in the sample playlist track list, contrary to the
claimed cascade into playlists. -/
theorem deleteTrack_playlists_cex :
    (deleteTrack "a" sampleState).tracks.map Track.id = ["b", "c"]
    ∧ (deleteTrack "a" sampleState).playlists.map Playlist.tracks
      = [[Option.some "a", Option.some "b", Option.some "c"]] := by
  exact ⟨by decide, by decide⟩

end MusicApp
